import Mathlib

/-!
Verification of the shokz-battery log-decoding pipeline.

Shallow embedding of the core of `shokz-battery.py`: the byte codec
(`hex_to_ascii`, `hex_to_mac`), the per-attribute decoders
(`decode_battery`, the per-kind update steps of `parse_logs`), the
battery-timestamp reconciliation fold of `parse_logs`, EQ-mode name
resolution (`get_eq_mode_name`), and the remaining-time estimate
(`estimate_remaining_time`).  Machine bytes are modelled as `Nat`
(values below 256 as produced by hex decoding), timestamps as their
seven numeric fields with an order-preserving encoding, and Python
`float` arithmetic in the estimate as exact rationals.
-/

/-- One hex digit's value, accepting `0-9`, `a-f`, `A-F` (as `int(c, 16)`
inside `bytes.fromhex`). -/
def hexDigitVal (c : Char) : Option Nat :=
  if '0' ≤ c ∧ c ≤ '9' then some (c.toNat - '0'.toNat)
  else if 'a' ≤ c ∧ c ≤ 'f' then some (c.toNat - 'a'.toNat + 10)
  else if 'A' ≤ c ∧ c ≤ 'F' then some (c.toNat - 'A'.toNat + 10)
  else none

/-- `bytes.fromhex` on a list of characters: pairs of hex digits become
bytes; an odd-length or non-hex input fails (Python raises `ValueError`).
The payloads reaching it are captured by the regex group `[0-9A-Fa-f]+`,
so they never contain whitespace; the whitespace tolerance of
`bytes.fromhex` is therefore not modelled. -/
def bytesFromHexList : List Char → Option (List Nat)
  | [] => some []
  | [_] => none
  | c1 :: c2 :: rest =>
    match hexDigitVal c1, hexDigitVal c2, bytesFromHexList rest with
    | some hi, some lo, some bs => some ((hi * 16 + lo) :: bs)
    | _, _, _ => none

/-- `bytes.decode('ascii', errors='ignore')`: bytes ≥ 128 are dropped,
bytes < 128 (including NUL) become the corresponding character. -/
def asciiDecode (bs : List Nat) : String :=
  String.mk ((bs.filter (fun b => b < 128)).map Char.ofNat)

/-- `hex_to_ascii(hex_str, skip_first)`: decode the hex, drop the first
`skipFirst` bytes, truncate at the first null byte only when its index is
positive (`if null_idx > 0`), then ASCII-decode lossily.  Returns `none`
exactly when the hex fails to decode. -/
def hex_to_ascii (v : String) (skipFirst : Nat) : Option String :=
  match bytesFromHexList v.toList with
  | none => none
  | some bs =>
    let bd := bs.drop skipFirst
    let bd2 :=
      match bd.findIdx? (fun b => b == 0) with
      | some i => if 0 < i then bd.take i else bd
      | none => bd
    some (asciiDecode bd2)

/-- Uppercase hex digit character for a value below 16 (`'0'..'9','A'..'F'`). -/
def hexDigitChar (n : Nat) : Char :=
  if n < 10 then Char.ofNat (48 + n) else Char.ofNat (55 + n)

/-- Python formatting of a byte with `02X`: two uppercase hex digits. -/
def hexPair (b : Nat) : String :=
  String.mk [hexDigitChar (b / 16), hexDigitChar (b % 16)]

/-- `':'.join(f'..' for b in bytes_data)`: hex pairs joined by colons. -/
def macRender (bs : List Nat) : String :=
  String.intercalate ":" (bs.map hexPair)

/-- `hex_to_mac(hex_str)`: decode the hex, take the first 6 bytes
(`[:6]`, which never raises, even on shorter input), render as uppercase
pairs joined by `:`.  Returns `none` exactly when the hex fails. -/
def hex_to_mac (v : String) : Option String :=
  match bytesFromHexList v.toList with
  | none => none
  | some bs => some (macRender (bs.take 6))

/-- The decoded battery record produced by `decode_battery`. -/
structure BatteryInfo where
  level_indicator : Nat
  percentage : Nat
  level_text : String
deriving DecidableEq, Repr

/-- `decode_battery(hex_value)`: byte 1 is the level indicator,
`percentage = min((level_indicator + 1) * 10, 100)`, and the textual tier
is High/Medium/Low/Critical at thresholds 70/40/20.  Fails on bad hex or
fewer than 2 bytes. -/
def decode_battery (v : String) : Option BatteryInfo :=
  match bytesFromHexList v.toList with
  | none => none
  | some bs =>
    if 2 ≤ bs.length then
      let level_indicator := bs.getD 1 0
      let percentage := min ((level_indicator + 1) * 10) 100
      let level_text :=
        if 70 ≤ percentage then "High"
        else if 40 ≤ percentage then "Medium"
        else if 20 ≤ percentage then "Low"
        else "Critical"
      some ⟨level_indicator, percentage, level_text⟩
    else none

/-- Python `round`: round half to even (banker's rounding), on exact
rationals. -/
def pyRound (q : ℚ) : ℤ :=
  let f := ⌊q⌋
  let frac := q - f
  if frac < 1 / 2 then f
  else if 1 / 2 < frac then f + 1
  else if f % 2 = 0 then f else f + 1

/-- `ADVERTISED_TALK_TIME_HOURS = 16`. -/
def ADVERTISED_TALK_TIME_HOURS : ℚ := 16

/-- `estimate_remaining_time(battery_percentage)`: return 0 for a
non-positive percentage; otherwise take `percentage/100 * 16 * 60`
minutes, subtract 60, return 0 if that is non-positive, else round to the
nearest 30 minutes.  Python float arithmetic is modelled exactly on `ℚ`. -/
def estimate_remaining_time (p : ℚ) : ℤ :=
  if p ≤ 0 then 0
  else
    let raw_minutes := p / 100 * ADVERTISED_TALK_TIME_HOURS * 60
    let conservative_minutes := raw_minutes - 60
    if conservative_minutes ≤ 0 then 0
    else pyRound (conservative_minutes / 30) * 30

/-- The `EQ_MODES_BY_MODEL` table, including its `default` key. -/
def EQ_MODES_BY_MODEL : List (String × List (Nat × String)) :=
  [ ("C102", [(0, "Standard"), (2, "Vocal Booster")]),
    ("C110", [(0, "Standard"), (2, "Vocal Booster")]),
    ("C120", [(0, "Standard"), (2, "Vocal Booster")]),
    ("S661", [(0, "Standard"), (1, "Vocal Booster"), (2, "Earplug")]),
    ("S803", [(0, "Standard"), (1, "Vocal Booster")]),
    ("S804", [(0, "Standard"), (1, "Vocal Booster")]),
    ("S810", [(0, "Standard"), (1, "Vocal"), (2, "Bass Boost"), (3, "Treble Boost")]),
    ("S811", [(0, "Standard"), (1, "Vocal"), (2, "Bass Boost"), (3, "Treble Boost")]),
    ("S812", [(0, "Standard"), (1, "Vocal"), (2, "Bass Boost"), (3, "Treble Boost"),
              (4, "Classic"), (5, "Volume Boost")]),
    ("T910", [(0, "Standard"), (1, "Vocal"), (2, "Bass Boost"), (3, "Treble Boost"),
              (4, "Private")]),
    ("default", [(0, "Standard"), (1, "Vocal"), (2, "Bass Boost"), (3, "Treble Boost")]) ]

/-- The EQ-mode table applicable to a headset type:
`EQ_MODES_BY_MODEL.get(headset_type, EQ_MODES_BY_MODEL['default'])`, with
`none` modelling Python `None` (absent headset type). -/
def eqModesFor (headsetType : Option String) : List (Nat × String) :=
  let dflt := [(0, "Standard"), (1, "Vocal"), (2, "Bass Boost"), (3, "Treble Boost")]
  match headsetType with
  | none => dflt
  | some t => (EQ_MODES_BY_MODEL.lookup t).getD dflt

/-- `get_eq_mode_name(mode_id, headset_type)`: look the id up in the
applicable table, falling back to `Unknown (<id>)`. -/
def get_eq_mode_name (modeId : Nat) (headsetType : Option String) : String :=
  ((eqModesFor headsetType).lookup modeId).getD ("Unknown (" ++ toString modeId ++ ")")

/-- The post-fold EQ-name resolution of `parse_logs`: only performed when
an `eq_mode_id` observation exists, using the final `headset_type`. -/
def resolveEqMode (eqModeId : Option Nat) (headsetType : Option String) : Option String :=
  eqModeId.map (fun i => get_eq_mode_name i headsetType)

/-- The `LANGUAGES` table. -/
def LANGUAGES : List (Nat × String) :=
  [(0, "English"), (1, "Chinese"), (2, "Japanese"), (3, "Korean"),
   (4, "Spanish"), (5, "French"), (6, "German")]

/-- `LANGUAGES.get(lang_id, f'Unknown (<id>)')`. -/
def langName (i : Nat) : String :=
  (LANGUAGES.lookup i).getD ("Unknown (" ++ toString i ++ ")")

/-! Per-kind snapshot update steps of `parse_logs` (lines 299-341): the
state is the current snapshot field(s) for that kind, the argument the
regex-captured hex payload of one matched record.  Python exceptions
caught by `except ... pass` leave the state unchanged; sequential
assignments before the raising subscript do take effect. -/

/-- `data['dongle_firmware'] = hex_to_ascii(value)`: unconditional
assignment, so a failed decode overwrites the field with `None`. -/
def stepDongleFirmware (_st : Option String) (v : String) : Option String :=
  match hex_to_ascii v 0 with
  | none => none
  | some s => some s

/-- `data['dongle_mac'] = hex_to_mac(value)`: unconditional assignment. -/
def stepDongleMac (_st : Option String) (v : String) : Option String :=
  match hex_to_mac v with
  | none => none
  | some s => some s

/-- `headset_type`: assigned only when the decode is truthy and not four
NUL characters; otherwise the previous value is kept. -/
def stepHeadsetType (st : Option String) (v : String) : Option String :=
  match hex_to_ascii v 0 with
  | none => st
  | some s =>
    if s ≠ "" ∧ s ≠ "\x00\x00\x00\x00" then some s else st

/-- `data['headset_firmware'] = hex_to_ascii(value, skip_first=1)`:
unconditional assignment. -/
def stepHeadsetFirmware (_st : Option String) (v : String) : Option String :=
  match hex_to_ascii v 1 with
  | none => none
  | some s => some s

/-- `multipoint`: `multipoint_enabled = bytes[1] == 1` then
`multipoint_connections = bytes[2]`, inside one `try`: with exactly 2
bytes the first assignment lands and the second raises `IndexError`, so
the connection count keeps its prior value. -/
def stepMultipoint (st : Option Bool × Option Nat) (v : String) :
    Option Bool × Option Nat :=
  match bytesFromHexList v.toList with
  | none => st
  | some bs =>
    match bs.get? 1 with
    | none => st
    | some b1 =>
      match bs.get? 2 with
      | none => (some (b1 == 1), st.2)
      | some b2 => (some (b1 == 1), some b2)

/-- `eq_mode`: `data['eq_mode_id'] = bytes[1]`, guarded by `try`. -/
def stepEqModeId (st : Option Nat) (v : String) : Option Nat :=
  match bytesFromHexList v.toList with
  | none => st
  | some bs =>
    match bs.get? 1 with
    | none => st
    | some b1 => some b1

/-- `language`: `data['voice_language'] = LANGUAGES.get(bytes[0], ...)`,
guarded by `try`. -/
def stepVoiceLanguage (st : Option String) (v : String) : Option String :=
  match bytesFromHexList v.toList with
  | none => st
  | some bs =>
    match bs.get? 0 with
    | none => st
    | some b0 => some (langName b0)

/-- `connection`: `data['connected'] = bytes[0] == 1`, guarded by `try`. -/
def stepConnection (st : Option Bool) (v : String) : Option Bool :=
  match bytesFromHexList v.toList with
  | none => st
  | some bs =>
    match bs.get? 0 with
    | none => st
    | some b0 => some (b0 == 1)

/-! The battery branch of `parse_logs` (lines 289-297).  The battery
pattern captures a timestamp `[YYYY-MM-DD HH:MM:SS:mmm]` (fixed digit
counts) and the hex payload; `datetime.strptime` then either yields a
`datetime` or raises `ValueError`, in which case the occurrence is
skipped (`continue`).  A timestamp is modelled by its seven numeric
fields; `strptime` succeeds exactly when they form a constructible
`datetime`, and `datetime` comparison is lexicographic on the fields,
which the strictly monotone `encodeTs` preserves on valid fields. -/

/-- The seven numeric fields captured by the battery timestamp pattern. -/
structure TsFields where
  year : Nat
  month : Nat
  day : Nat
  hour : Nat
  minute : Nat
  second : Nat
  millisecond : Nat
deriving DecidableEq, Repr

/-- Gregorian leap year, as used by Python's `datetime`. -/
def isLeap (y : Nat) : Bool :=
  (y % 4 == 0 && y % 100 != 0) || y % 400 == 0

/-- Days in a month, as validated by the `datetime` constructor. -/
def daysInMonth (y mo : Nat) : Nat :=
  if mo = 2 then (if isLeap y then 29 else 28)
  else if mo = 4 ∨ mo = 6 ∨ mo = 9 ∨ mo = 11 then 30
  else 31

/-- Whether `datetime.strptime` accepts the fields: `datetime` requires
year in 1..9999, a real calendar date, hour ≤ 23, minute ≤ 59,
second ≤ 59.  The pattern captures exactly three millisecond digits, so
`millisecond ≤ 999` always holds on captured records. -/
def validTs (t : TsFields) : Bool :=
  1 ≤ t.year && t.year ≤ 9999 &&
  1 ≤ t.month && t.month ≤ 12 &&
  1 ≤ t.day && t.day ≤ daysInMonth t.year t.month &&
  t.hour ≤ 23 && t.minute ≤ 59 && t.second ≤ 59 && t.millisecond ≤ 999

/-- Order-preserving encoding of a valid timestamp (lexicographic order
on the fields, as `datetime` comparison). -/
def encodeTs (t : TsFields) : Nat :=
  ((((t.year * 13 + t.month) * 32 + t.day) * 24 + t.hour) * 60 + t.minute) * 60 * 1000
    + t.second * 1000 + t.millisecond

/-- `datetime.strptime(timestamp_str, '%Y-%m-%d %H:%M:%S:%f')`:
some encoded instant on success, `none` on `ValueError`. -/
def parseTs (t : TsFields) : Option Nat :=
  if validTs t then some (encodeTs t) else none

/-- One match of the battery pattern: the captured timestamp fields and
the captured hex payload. -/
structure BatteryRecord where
  tsf : TsFields
  valueHex : String
deriving DecidableEq, Repr

/-- The `data['battery']` dict: `value` and `timestamp` entries, both
initialised to `None`. -/
structure BatteryState where
  value : Option String
  timestamp : Option Nat
deriving DecidableEq, Repr

/-- One iteration of the battery loop: parse the timestamp (skip the
record on failure), then overwrite the state when there is no stored
timestamp yet or the new one is strictly later. -/
def batteryStep (st : BatteryState) (r : BatteryRecord) : BatteryState :=
  match parseTs r.tsf with
  | none => st
  | some t =>
    match st.timestamp with
    | none => ⟨some r.valueHex, some t⟩
    | some t0 => if t0 < t then ⟨some r.valueHex, some t⟩ else st

/-- The battery reconciliation over all matches of all files, in scan
order, starting from the empty state. -/
def foldBattery (recs : List BatteryRecord) : BatteryState :=
  recs.foldl batteryStep ⟨none, none⟩

/-- A concrete battery record with a valid early timestamp. -/
def recEarly : BatteryRecord :=
  ⟨⟨2024, 1, 1, 0, 0, 0, 0⟩, "0003FF00"⟩

/-- A concrete battery record with a valid later timestamp. -/
def recLate : BatteryRecord :=
  ⟨⟨2024, 1, 2, 0, 0, 0, 0⟩, "0009FF00"⟩

/-- A concrete battery record whose timestamp string matches the digit
pattern but fails `strptime` (month 13). -/
def recBadTs : BatteryRecord :=
  ⟨⟨2024, 13, 1, 0, 0, 0, 0⟩, "0005FF00"⟩

theorem batteryStep_none (st : BatteryState) (r : BatteryRecord)
    (h : parseTs r.tsf = none) : batteryStep st r = st := by
  simp [batteryStep, h]

theorem batteryStep_changed (st : BatteryState) (r : BatteryRecord)
    (h : batteryStep st r ≠ st) :
    ∃ t, parseTs r.tsf = some t ∧ batteryStep st r = ⟨some r.valueHex, some t⟩ := by
  unfold batteryStep at h ⊢
  cases hp : parseTs r.tsf with
  | none => rw [hp] at h; exact absurd rfl h
  | some t =>
    refine ⟨t, rfl, ?_⟩
    cases hst : st.timestamp with
    | none => rfl
    | some t0 =>
      rw [hp, hst] at h
      show (if t0 < t then BatteryState.mk (some r.valueHex) (some t) else st) = _
      by_cases hlt : t0 < t
      · simp [hlt]
      · simp [hlt] at h

theorem batteryStep_timestamp_mono (st : BatteryState) (r : BatteryRecord)
    (t0 : Nat) (h : st.timestamp = some t0) :
    ∃ t1, (batteryStep st r).timestamp = some t1 ∧ t0 ≤ t1 := by
  unfold batteryStep
  cases hp : parseTs r.tsf with
  | none => exact ⟨t0, h, le_refl t0⟩
  | some t =>
    rw [h]
    by_cases hlt : t0 < t
    · exact ⟨t, by simp [hlt], Nat.le_of_lt hlt⟩
    · exact ⟨t0, by simp [hlt, h], le_refl t0⟩

theorem batteryStep_parsed_le (st : BatteryState) (r : BatteryRecord)
    (t : Nat) (h : parseTs r.tsf = some t) :
    ∃ t1, (batteryStep st r).timestamp = some t1 ∧ t ≤ t1 := by
  unfold batteryStep
  rw [h]
  cases hst : st.timestamp with
  | none => exact ⟨t, rfl, le_refl t⟩
  | some t0 =>
    by_cases hlt : t0 < t
    · exact ⟨t, by simp [hlt], le_refl t⟩
    · exact ⟨t0, by simp [hlt, hst], Nat.le_of_not_lt hlt⟩

theorem foldl_battery_timestamp_mono (recs : List BatteryRecord) :
    ∀ st t0, st.timestamp = some t0 →
      ∃ t1, (recs.foldl batteryStep st).timestamp = some t1 ∧ t0 ≤ t1 := by
  induction recs with
  | nil => exact fun st t0 h => ⟨t0, h, le_refl t0⟩
  | cons r rest ih =>
    intro st t0 h
    obtain ⟨t1, h1, hle1⟩ := batteryStep_timestamp_mono st r t0 h
    obtain ⟨t2, h2, hle2⟩ := ih (batteryStep st r) t1 h1
    exact ⟨t2, h2, le_trans hle1 hle2⟩

theorem foldl_battery_mem_le (recs : List BatteryRecord) (st : BatteryState)
    (r : BatteryRecord) (t : Nat) (hr : r ∈ recs) (h : parseTs r.tsf = some t) :
    ∃ t1, (recs.foldl batteryStep st).timestamp = some t1 ∧ t ≤ t1 := by
  obtain ⟨l1, l2, rfl⟩ := List.append_of_mem hr
  rw [List.foldl_append, List.foldl_cons]
  obtain ⟨t1, h1, hle1⟩ := batteryStep_parsed_le (List.foldl batteryStep st l1) r t h
  obtain ⟨t2, h2, hle2⟩ := foldl_battery_timestamp_mono l2 _ t1 h1
  exact ⟨t2, h2, le_trans hle1 hle2⟩

theorem foldl_battery_provenance (recs : List BatteryRecord) :
    ∀ st, recs.foldl batteryStep st = st ∨
      ∃ r ∈ recs, ∃ t, parseTs r.tsf = some t ∧
        recs.foldl batteryStep st = ⟨some r.valueHex, some t⟩ := by
  induction recs with
  | nil => exact fun st => Or.inl rfl
  | cons r rest ih =>
    intro st
    by_cases hch : batteryStep st r = st
    · rcases ih (batteryStep st r) with h | ⟨r', hr', t, hp, heq⟩
      · exact Or.inl (by rw [List.foldl_cons, h, hch])
      · exact Or.inr ⟨r', List.mem_cons_of_mem r hr', t, hp, heq⟩
    · obtain ⟨t, hp, heq⟩ := batteryStep_changed st r hch
      rcases ih (batteryStep st r) with h | ⟨r', hr', t', hp', heq'⟩
      · exact Or.inr ⟨r, List.mem_cons_self r rest, t, hp,
          by rw [List.foldl_cons, h, heq]⟩
      · exact Or.inr ⟨r', List.mem_cons_of_mem r hr', t', hp', heq'⟩

theorem foldl_battery_filter (recs : List BatteryRecord) :
    ∀ st, recs.foldl batteryStep st =
      (recs.filter (fun r => (parseTs r.tsf).isSome)).foldl batteryStep st := by
  induction recs with
  | nil => exact fun st => rfl
  | cons r rest ih =>
    intro st
    cases hp : parseTs r.tsf with
    | none =>
      rw [List.foldl_cons, batteryStep_none st r hp,
        List.filter_cons_of_neg (by simp [hp]), ih st]
    | some t =>
      rw [List.foldl_cons, List.filter_cons_of_pos (by simp [hp]), List.foldl_cons,
        ih (batteryStep st r)]

theorem batteryStep_invariant (st : BatteryState) (r : BatteryRecord)
    (h : st.value.isSome = st.timestamp.isSome) :
    (batteryStep st r).value.isSome = (batteryStep st r).timestamp.isSome := by
  unfold batteryStep
  cases hp : parseTs r.tsf with
  | none => exact h
  | some t =>
    cases hst : st.timestamp with
    | none => rfl
    | some t0 =>
      by_cases hlt : t0 < t
      · simp [hlt]
      · simp [hlt, h]

theorem foldl_battery_invariant (recs : List BatteryRecord) :
    ∀ st : BatteryState, st.value.isSome = st.timestamp.isSome →
      (recs.foldl batteryStep st).value.isSome =
        (recs.foldl batteryStep st).timestamp.isSome := by
  induction recs with
  | nil => exact fun st h => h
  | cons r rest ih => exact fun st h => ih _ (batteryStep_invariant st r h)

/-- C1: for every hex payload decoding to at least 2 bytes,
`decode_battery` succeeds with `percentage = min((byte1 + 1) * 10, 100)`,
a multiple of 10 in `[10, 100]`, and the tier thresholds are
70/40/20 for High/Medium/Low with Critical below. -/
theorem decode_battery_percentage_spec (v : String) (bs : List Nat)
    (hb : bytesFromHexList v.toList = some bs) (hlen : 2 ≤ bs.length) :
    ∃ r : BatteryInfo, decode_battery v = some r ∧
      r.level_indicator = bs.getD 1 0 ∧
      r.percentage = min ((bs.getD 1 0 + 1) * 10) 100 ∧
      10 ≤ r.percentage ∧ r.percentage ≤ 100 ∧ r.percentage % 10 = 0 ∧
      r.level_text = (if 70 ≤ r.percentage then "High"
        else if 40 ≤ r.percentage then "Medium"
        else if 20 ≤ r.percentage then "Low"
        else "Critical") := by
  unfold decode_battery
  rw [hb]
  simp only [if_pos hlen]
  refine ⟨_, rfl, rfl, rfl, ?_, ?_, ?_, rfl⟩ <;> dsimp only <;> omega

theorem decode_battery_percentage_spec_witness :
    ∃ r : BatteryInfo, decode_battery "0005FF00" = some r ∧
      r.level_indicator = [0, 5, 255, 0].getD 1 0 ∧
      r.percentage = min (([0, 5, 255, 0].getD 1 0 + 1) * 10) 100 ∧
      10 ≤ r.percentage ∧ r.percentage ≤ 100 ∧ r.percentage % 10 = 0 ∧
      r.level_text = (if 70 ≤ r.percentage then "High"
        else if 40 ≤ r.percentage then "Medium"
        else if 20 ≤ r.percentage then "Low"
        else "Critical") :=
  decode_battery_percentage_spec "0005FF00" [0, 5, 255, 0] (by decide) (by decide)

/-- C4 counterexample: `hex_to_mac` on the 5-byte input
`AA BB CC DD EE` does not fail; it renders a 5-pair string. -/
theorem hex_to_mac_short_counterexample :
    hex_to_mac "AABBCCDDEE" = some "AA:BB:CC:DD:EE" ∧
    hex_to_mac "AABBCCDDEE" ≠ none := by decide

/-- C4 (amended): `hex_to_mac` on exactly 6 bytes renders the 6 uppercase
pairs joined by `:`; on fewer than 6 bytes it renders however many bytes
are present (no failure); it fails only when the hex itself is invalid. -/
theorem hex_to_mac_spec :
    hex_to_mac "AABBCCDDEEFF" = some "AA:BB:CC:DD:EE:FF" ∧
    (∀ (v : String) (bs : List Nat), bytesFromHexList v.toList = some bs →
        hex_to_mac v = some (macRender (bs.take 6))) ∧
    (∀ (v : String) (bs : List Nat), bytesFromHexList v.toList = some bs →
        bs.length < 6 → hex_to_mac v = some (macRender bs)) ∧
    (∀ v : String, bytesFromHexList v.toList = none → hex_to_mac v = none) := by
  refine ⟨by decide, ?_, ?_, ?_⟩
  · intro v bs hb
    simp only [hex_to_mac, hb]
  · intro v bs hb hlen
    simp only [hex_to_mac, hb, List.take_of_length_le (Nat.le_of_lt hlen)]
  · intro v hb
    simp only [hex_to_mac, hb]

theorem hex_to_mac_spec_witness :
    hex_to_mac "AABB" = some (macRender ([170, 187].take 6)) :=
  hex_to_mac_spec.2.1 "AABB" [170, 187] (by decide)

/-- C5 counterexample: a multipoint payload with byte 1 equal to 2
(nonzero) decodes to `multipoint_enabled = false`, because the code tests
`bytes[1] == 1`, not nonzero. -/
theorem multipoint_nonzero_counterexample :
    stepMultipoint (none, none) "000201" = (some false, some 1) ∧
    (stepMultipoint (none, none) "000201").1 ≠ some true := by decide

/-- C5 (amended): for every multipoint payload of at least 3 bytes, the
enabled flag is true exactly when byte 1 equals 1, and the connection
count equals byte 2. -/
theorem multipoint_decode_spec (st : Option Bool × Option Nat) (v : String)
    (bs : List Nat) (b1 b2 : Nat) (hb : bytesFromHexList v.toList = some bs)
    (h1 : bs.get? 1 = some b1) (h2 : bs.get? 2 = some b2) :
    stepMultipoint st v = (some (b1 == 1), some b2) ∧
    ((b1 == 1) = true ↔ b1 = 1) := by
  constructor
  · simp only [stepMultipoint, hb, h1, h2]
  · exact beq_iff_eq

theorem multipoint_decode_spec_witness :
    stepMultipoint (none, none) "000101" = (some ((1 : Nat) == 1), some 1) ∧
    (((1 : Nat) == 1) = true ↔ (1 : Nat) = 1) :=
  multipoint_decode_spec (none, none) "000101" [0, 1, 1] 1 1
    (by decide) (by decide) (by decide)

/-- C7: EQ-mode names resolve from the final snapshot's headset type:
id 2 with S810 gives Bass Boost; id 1 with an unknown or absent type
gives Vocal from the default table; an id absent from the applicable
table gives `Unknown (<id>)`. -/
theorem eq_mode_resolution_spec :
    resolveEqMode (some 2) (some "S810") = some "Bass Boost" ∧
    resolveEqMode (some 1) none = some "Vocal" ∧
    resolveEqMode (some 1) (some "X999") = some "Vocal" ∧
    (∀ (i : Nat) (ht : Option String), (eqModesFor ht).lookup i = none →
        get_eq_mode_name i ht = "Unknown (" ++ toString i ++ ")") := by
  refine ⟨by decide, by decide, by decide, ?_⟩
  intro i ht h
  unfold get_eq_mode_name
  rw [h]
  rfl

theorem eq_mode_resolution_spec_witness :
    get_eq_mode_name 9 (some "S810") = "Unknown (" ++ toString 9 ++ ")" :=
  eq_mode_resolution_spec.2.2.2 9 (some "S810") (by decide)

/-- C2: battery reconciliation keeps the record with the latest parsed
timestamp (the final timestamp dominates every record's and the final
value comes from a record carrying the final timestamp); a timestamp tie
keeps the first record seen; and for two records with timestamps
T1 < T2 the snapshot's battery value is the T2 record's, in either scan
order. -/
theorem battery_reconciliation_latest_wins :
    (∀ (recs : List BatteryRecord) (r : BatteryRecord) (t : Nat), r ∈ recs →
        parseTs r.tsf = some t →
        ∃ t1, (foldBattery recs).timestamp = some t1 ∧ t ≤ t1) ∧
    (∀ recs : List BatteryRecord, (∃ r ∈ recs, (parseTs r.tsf).isSome) →
        ∃ r ∈ recs, ∃ t, parseTs r.tsf = some t ∧
          (foldBattery recs).value = some r.valueHex ∧
          (foldBattery recs).timestamp = some t) ∧
    (∀ (r1 r2 : BatteryRecord) (t1 t2 : Nat),
        parseTs r1.tsf = some t1 → parseTs r2.tsf = some t2 → t1 = t2 →
        (foldBattery [r1, r2]).value = some r1.valueHex) ∧
    (∀ (r1 r2 : BatteryRecord) (t1 t2 : Nat),
        parseTs r1.tsf = some t1 → parseTs r2.tsf = some t2 → t1 < t2 →
        (foldBattery [r1, r2]).value = some r2.valueHex ∧
        (foldBattery [r2, r1]).value = some r2.valueHex) := by
  refine ⟨?_, ?_, ?_, ?_⟩
  · intro recs r t hr hp
    exact foldl_battery_mem_le recs ⟨none, none⟩ r t hr hp
  · intro recs ⟨r0, hr0, hp0⟩
    obtain ⟨t0, hpt0⟩ := Option.isSome_iff_exists.mp hp0
    rcases foldl_battery_provenance recs ⟨none, none⟩ with h | ⟨r, hr, t, hp, heq⟩
    · exfalso
      obtain ⟨t1, h1, _⟩ := foldl_battery_mem_le recs ⟨none, none⟩ r0 t0 hr0 hpt0
      rw [h] at h1
      exact Option.noConfusion h1
    · exact ⟨r, hr, t, hp, by rw [foldBattery, heq], by rw [foldBattery, heq]⟩
  · intro r1 r2 t1 t2 h1 h2 hteq
    subst hteq
    simp [foldBattery, batteryStep, h1, h2]
  · intro r1 r2 t1 t2 h1 h2 hlt
    have hnlt : ¬ t2 < t1 := by omega
    constructor
    · simp [foldBattery, batteryStep, h1, h2, hlt]
    · simp [foldBattery, batteryStep, h1, h2, hnlt]

theorem battery_reconciliation_latest_wins_witness :
    (foldBattery [recEarly, recLate]).value = some recLate.valueHex ∧
    (foldBattery [recLate, recEarly]).value = some recLate.valueHex :=
  battery_reconciliation_latest_wins.2.2.2 recEarly recLate
    (encodeTs recEarly.tsf) (encodeTs recLate.tsf) (by decide) (by decide) (by decide)

/-- C6 counterexample: a single battery record whose timestamp matches
the digit pattern but fails parsing (month 13) is discarded entirely;
no first-occurrence fallback stores its value. -/
theorem unparseable_timestamp_counterexample :
    parseTs recBadTs.tsf = none ∧
    (foldBattery [recBadTs]).value = none ∧
    (foldBattery [recBadTs]).value ≠ some recBadTs.valueHex := by decide

/-- C6 (amended): a battery record with an unparseable timestamp is
discarded without aborting (the fold's result equals the fold over the
parseable records alone), and when no timestamp parses the snapshot
holds no battery observation at all — there is no first-occurrence
fallback. -/
theorem unparseable_timestamp_discard :
    (∀ recs : List BatteryRecord,
        foldBattery recs =
          foldBattery (recs.filter (fun r => (parseTs r.tsf).isSome))) ∧
    (∀ recs : List BatteryRecord, (∀ r ∈ recs, parseTs r.tsf = none) →
        foldBattery recs = ⟨none, none⟩) := by
  constructor
  · intro recs
    exact foldl_battery_filter recs ⟨none, none⟩
  · intro recs hall
    have hfil : recs.filter (fun r => (parseTs r.tsf).isSome) = [] := by
      rw [List.filter_eq_nil_iff]
      intro r hr
      simp [hall r hr]
    unfold foldBattery
    rw [foldl_battery_filter recs ⟨none, none⟩, hfil]
    rfl

theorem unparseable_timestamp_discard_witness :
    foldBattery [recBadTs] = ⟨none, none⟩ :=
  unparseable_timestamp_discard.2 [recBadTs] (by decide)

/-- C10: in every folded battery state, the value and the timestamp are
both absent or both present: they are only ever written together and the
battery matcher requires a timestamp. -/
theorem battery_value_timestamp_invariant (recs : List BatteryRecord) :
    ((foldBattery recs).value = none ↔ (foldBattery recs).timestamp = none) := by
  have h : (foldBattery recs).value.isSome = (foldBattery recs).timestamp.isSome :=
    foldl_battery_invariant recs ⟨none, none⟩ rfl
  cases hv : (foldBattery recs).value with
  | none =>
    cases ht : (foldBattery recs).timestamp with
    | none => simp
    | some t => rw [hv, ht] at h; simp at h
  | some v =>
    cases ht : (foldBattery recs).timestamp with
    | none => rw [hv, ht] at h; simp at h
    | some t => simp

/-- C3 counterexample: a dongle-firmware payload that decodes (giving
"AB") followed by a malformed payload (odd-length hex "414"): the second,
failed decode overwrites the previously decoded value with unset, because
the assignment is unconditional. -/
theorem malformed_payload_overwrite_counterexample :
    stepDongleFirmware none "4142" = some "AB" ∧
    stepDongleFirmware (stepDongleFirmware none "4142") "414" = none := by decide

/-- C3 (amended): a malformed payload never aborts the scan and is
skipped locally for the kinds whose updates are guarded
(headset type, multipoint, eq mode, voice language, connection), leaving
any prior value intact; but for dongle firmware, dongle MAC and headset
firmware the failed decode is assigned unconditionally, overwriting the
field with unset; a 2-byte multipoint payload updates the enabled flag
while keeping the prior connection count. -/
theorem malformed_payload_handling :
    (∀ (st : Option Nat) (v : String), bytesFromHexList v.toList = none →
        stepEqModeId st v = st) ∧
    (∀ (st : Option Bool × Option Nat) (v : String),
        bytesFromHexList v.toList = none → stepMultipoint st v = st) ∧
    (∀ (st : Option String) (v : String), bytesFromHexList v.toList = none →
        stepVoiceLanguage st v = st) ∧
    (∀ (st : Option Bool) (v : String), bytesFromHexList v.toList = none →
        stepConnection st v = st) ∧
    (∀ (st : Option String) (v : String), bytesFromHexList v.toList = none →
        stepHeadsetType st v = st) ∧
    (∀ (st : Option String) (v : String), bytesFromHexList v.toList = none →
        stepDongleFirmware st v = none ∧ stepDongleMac st v = none ∧
          stepHeadsetFirmware st v = none) ∧
    (∀ (st : Option Nat) (v : String) (bs : List Nat),
        bytesFromHexList v.toList = some bs → bs.length ≤ 1 →
        stepEqModeId st v = st) ∧
    (∀ (st : Option Bool × Option Nat) (v : String) (bs : List Nat),
        bytesFromHexList v.toList = some bs → bs.length ≤ 1 →
        stepMultipoint st v = st) ∧
    (∀ (st : Option Bool × Option Nat) (v : String) (bs : List Nat),
        bytesFromHexList v.toList = some bs → bs.length = 2 →
        (stepMultipoint st v).2 = st.2) ∧
    (∀ (st : Option String) (v : String), bytesFromHexList v.toList = some [] →
        stepVoiceLanguage st v = st) ∧
    (∀ (st : Option Bool) (v : String), bytesFromHexList v.toList = some [] →
        stepConnection st v = st) := by
  refine ⟨?_, ?_, ?_, ?_, ?_, ?_, ?_, ?_, ?_, ?_, ?_⟩
  · intro st v h; simp only [stepEqModeId, h]
  · intro st v h; simp only [stepMultipoint, h]
  · intro st v h; simp only [stepVoiceLanguage, h]
  · intro st v h; simp only [stepConnection, h]
  · intro st v h; simp only [stepHeadsetType, hex_to_ascii, h]
  · intro st v h
    exact ⟨by simp only [stepDongleFirmware, hex_to_ascii, h],
      by simp only [stepDongleMac, hex_to_mac, h],
      by simp only [stepHeadsetFirmware, hex_to_ascii, h]⟩
  · intro st v bs hb hlen
    simp only [stepEqModeId, hb, List.get?_eq_none.mpr hlen]
  · intro st v bs hb hlen
    simp only [stepMultipoint, hb, List.get?_eq_none.mpr hlen]
  · intro st v bs hb hlen
    cases h1 : bs.get? 1 with
    | none => rw [List.get?_eq_none] at h1; omega
    | some b1 =>
      have h2 : bs.get? 2 = none := List.get?_eq_none.mpr (by omega)
      simp only [stepMultipoint, hb, h1, h2]
  · intro st v hb
    unfold stepVoiceLanguage
    rw [hb]
    rfl
  · intro st v hb
    unfold stepConnection
    rw [hb]
    rfl

theorem malformed_payload_handling_witness :
    stepEqModeId (some 3) "F" = some 3 ∧
    stepDongleFirmware (some "AB") "F" = none :=
  ⟨malformed_payload_handling.1 (some 3) "F" (by decide),
    (malformed_payload_handling.2.2.2.2.2.1 (some "AB") "F" (by decide)).1⟩

/-- C8: `estimate_remaining_time` implements
`round(max(p/100*16*60 - 60, 0)/30)*30` (with Python's half-to-even
rounding); its literal output on 80 is 720, on 0 it is 0, and every
percentage whose conservative minutes are non-positive yields 0. -/
theorem estimate_remaining_time_spec :
    (∀ p : ℚ, estimate_remaining_time p =
        pyRound (max (p / 100 * (16 * 60) - 60) 0 / 30) * 30) ∧
    estimate_remaining_time 80 = 720 ∧
    estimate_remaining_time 0 = 0 ∧
    (∀ p : ℚ, p / 100 * (16 * 60) - 60 ≤ 0 → estimate_remaining_time p = 0) := by
  have hassoc : ∀ p : ℚ, p / 100 * ADVERTISED_TALK_TIME_HOURS * 60 =
      p / 100 * (16 * 60) := by
    intro p; unfold ADVERTISED_TALK_TIME_HOURS; ring
  have hround0 : pyRound 0 = 0 := by norm_num [pyRound]
  have hmain : ∀ p : ℚ, estimate_remaining_time p =
      pyRound (max (p / 100 * (16 * 60) - 60) 0 / 30) * 30 := by
    intro p
    unfold estimate_remaining_time
    rw [hassoc p]
    by_cases hp : p ≤ 0
    · rw [if_pos hp]
      have hc : p / 100 * (16 * 60) - 60 ≤ 0 := by nlinarith
      rw [max_eq_right hc]
      norm_num [hround0]
    · rw [if_neg hp]
      by_cases hc : p / 100 * (16 * 60) - 60 ≤ 0
      · rw [if_pos hc, max_eq_right hc]
        norm_num [hround0]
      · rw [if_neg hc, max_eq_left (by linarith : (0 : ℚ) ≤ p / 100 * (16 * 60) - 60)]
  refine ⟨hmain, ?_, ?_, ?_⟩
  · rw [hmain 80]
    have h80 : ((80 : ℚ) / 100 * (16 * 60) - 60) = 708 := by norm_num
    rw [h80, max_eq_left (by norm_num : (0 : ℚ) ≤ 708)]
    have : ((708 : ℚ) / 30) = 118 / 5 := by norm_num
    rw [this]
    have hfl : ⌊(118 : ℚ) / 5⌋ = 23 := by
      rw [Int.floor_eq_iff]
      norm_num
    unfold pyRound
    rw [hfl]
    norm_num
  · rw [hmain 0]
    norm_num [hround0]
  · intro p hc
    rw [hmain p, max_eq_right hc]
    norm_num [hround0]

theorem estimate_remaining_time_spec_witness :
    estimate_remaining_time 5 = 0 :=
  estimate_remaining_time_spec.2.2.2 5 (by norm_num)

/-- C9: `hex_to_ascii` truncates at the first null byte only when that
null is not the very first byte of the post-skip slice: bytes
41 42 00 43 give "AB", while 00 41 give the full (lossy) decode of the
remainder, NUL included. -/
theorem hex_to_ascii_null_handling :
    (∀ (v : String) (bs : List Nat) (sk : Nat),
        bytesFromHexList v.toList = some bs → (bs.drop sk).head? = some 0 →
        hex_to_ascii v sk = some (asciiDecode (bs.drop sk))) ∧
    (∀ (v : String) (bs : List Nat) (sk i : Nat),
        bytesFromHexList v.toList = some bs →
        (bs.drop sk).findIdx? (fun b => b == 0) = some i → 0 < i →
        hex_to_ascii v sk = some (asciiDecode ((bs.drop sk).take i))) ∧
    hex_to_ascii "41420043" 0 = some "AB" ∧
    hex_to_ascii "0041" 0 = some (asciiDecode [0, 65]) ∧
    asciiDecode [0, 65] = String.mk [Char.ofNat 0, Char.ofNat 65] := by
  refine ⟨?_, ?_, by decide, by decide, by decide⟩
  · intro v bs sk hb hh
    simp only [hex_to_ascii, hb]
    cases hd : bs.drop sk with
    | nil => rw [hd] at hh; exact absurd hh (by simp)
    | cons a as =>
      rw [hd] at hh
      simp only [List.head?_cons, Option.some_inj] at hh
      subst hh
      simp [List.findIdx?_cons]
  · intro v bs sk i hb hf hi
    simp only [hex_to_ascii, hb, hf, if_pos hi]

theorem hex_to_ascii_null_handling_witness :
    hex_to_ascii "41420043" 0 = some (asciiDecode (([65, 66, 0, 67].drop 0).take 2)) :=
  hex_to_ascii_null_handling.2.1 "41420043" [65, 66, 0, 67] 0 2
    (by decide) (by decide) (by decide)
